import Mathlib

/-!
Verification of the movement-intent resolver and serialization model of the
`rustac` repository (`src/gamestate/movement.rs`, `src/gamestate/duration.rs`).

Embedding choices:
* Rust `f64` values are embedded as exact rationals `ℚ`.  Every concrete
  trajectory examined below uses dyadic rationals, on which the Rust `f64`
  operations involved (add, sub, mul by ±1, min, trunc, round, compare) are
  exact, so the rational computation coincides with the `f64` one.
* The Rust constant `PRECISION = 0.0000001` is embedded as the exact rational
  `1 / 10^7`.
* `UPDATES_PER_SECOND` is a crate-level constant defined outside the provided
  sources; `moveFrom` therefore takes the tick rate as an explicit parameter
  `ups`.
* In `move_from`, the only division that can have a zero denominator is the
  proportional split `|dx| / (|dx| + |dy|)`, and only when `dx = dy = 0`.
  There Rust produces `NaN`, which the subsequent `f64::min` against `0.0`
  collapses to `0.0`; the rational convention `0 / 0 = 0` composed with `min`
  lands on the same value, so the `ℚ` embedding agrees with the `f64` code on
  that path for all finite inputs.
-/

namespace Rustac

/-- Rust: `const PRECISION: f64 = 0.0000001;` (movement.rs line 11),
embedded as the exact rational 10⁻⁷. -/
def PRECISION : ℚ := 1 / 10 ^ 7

/-- Rust: `pub const DEFAULT_SPEED: f64 = 5f64;` (movement.rs line 9). -/
def DEFAULT_SPEED : ℚ := 5

/-- Modelled from the spec: `LocationVec` is defined in the `gamestate`
module root, which is not among the provided sources.  Spec §3: a 2D
location vector is a pair of 64-bit floating-point coordinates (x, y),
with derived field-wise equality. -/
structure LocationVec where
  x : ℚ
  y : ℚ
deriving DecidableEq

/-- Rust: `enum MoveIntent { Vector(LocationVec, f64), Position(LocationVec, f64) }`
(movement.rs lines 22-26). -/
inductive MoveIntent where
  | Vector (v : LocationVec) (speed : ℚ)
  | Position (target : LocationVec) (speed : ℚ)
deriving DecidableEq

/-- Rust: `enum Duration { Infinite, Steps(i32), Updates(i32) }`
(duration.rs lines 5-10); the `i32` payloads are embedded as `ℤ`. -/
inductive Duration where
  | Infinite
  | Steps (n : ℤ)
  | Updates (n : ℤ)
deriving DecidableEq

/-- Rust `f64::trunc`: rounds toward zero (for negative arguments this is
the ceiling, written `-⌊-a⌋`). -/
def ratTrunc (a : ℚ) : ℚ := if 0 ≤ a then (⌊a⌋ : ℚ) else -(⌊-a⌋ : ℚ)

/-- Rust `f64::round`: rounds to the nearest integer, half away from zero. -/
def rustRound (a : ℚ) : ℚ := if 0 ≤ a then (⌊a + 1 / 2⌋ : ℚ) else (-⌊-a + 1 / 2⌋ : ℚ)

/-- Rust: `let x_direction = if movement_vec.x == 0.0 { 0.0 } else { movement_vec.x / movement_vec.x.abs() };`
(movement.rs lines 64-65). -/
def direction (t : ℚ) : ℚ := if t = 0 then 0 else t / |t|

/-- Rust: `let step = *speed / UPDATES_PER_SECOND as f64;` (movement.rs line 62). -/
def stepSize (ups : ℕ) (speed : ℚ) : ℚ := speed / (ups : ℚ)

/-- Rust: `let mut x_step = movement_vec.x.abs() / (movement_vec.x.abs() + movement_vec.y.abs()) * step;`
(movement.rs line 69). -/
def rawStepX (v : LocationVec) (step : ℚ) : ℚ := |v.x| / (|v.x| + |v.y|) * step

/-- Rust: `let mut y_step = movement_vec.y.abs() / (movement_vec.x.abs() + movement_vec.y.abs()) * step;`
(movement.rs line 70). -/
def rawStepY (v : LocationVec) (step : ℚ) : ℚ := |v.y| / (|v.x| + |v.y|) * step

/-- Rust: `x_step = x_step.min(movement_vec.x.abs());` (movement.rs line 73). -/
def clampedStepX (v : LocationVec) (step : ℚ) : ℚ := min (rawStepX v step) |v.x|

/-- Rust: `y_step = y_step.min(movement_vec.y.abs());` (movement.rs line 74). -/
def clampedStepY (v : LocationVec) (step : ℚ) : ℚ := min (rawStepY v step) |v.y|

/-- Rust: `if new_intent_x.abs() < PRECISION { new_intent_x = 0f64; }`
(movement.rs lines 80-86). -/
def snapPrecision (t : ℚ) : ℚ := if |t| < PRECISION then 0 else t

/-- Rust (movement.rs lines 96-101, identically 103-108 for y):
`if new_x.abs() - new_x.trunc().abs() < PRECISION && new_x > new_x.trunc() { new_x = new_x.round(); }`
`else if new_x.abs() - (new_x + PRECISION).trunc().abs() < PRECISION { new_x = new_x.round(); }` -/
def roundCorrect (a : ℚ) : ℚ :=
  if |a| - |ratTrunc a| < PRECISION ∧ ratTrunc a < a then rustRound a
  else if |a| - |ratTrunc (a + PRECISION)| < PRECISION then rustRound a
  else a

/-- The `MoveIntent::Vector` branch of `move_from` (movement.rs lines 61-115).
Returns the pair (new location, new displacement vector). -/
def moveVector (ups : ℕ) (v : LocationVec) (speed : ℚ) (location : LocationVec) :
    LocationVec × LocationVec :=
  let step := stepSize ups speed
  let xStep := clampedStepX v step
  let yStep := clampedStepY v step
  (⟨roundCorrect (location.x + xStep * direction v.x),
    roundCorrect (location.y + yStep * direction v.y)⟩,
   ⟨snapPrecision (v.x - xStep * direction v.x),
    snapPrecision (v.y - yStep * direction v.y)⟩)

/-- Rust: `pub fn move_from(&mut self, location: &LocationVec) -> LocationVec`
(movement.rs lines 50-117).  The `&mut self` mutation is made explicit: the
result pairs the returned location with the intent value after the call.
The `Position` branch (lines 52-60) builds a dummy `Vector` intent with
displacement `target - location` and recurses on it; `self` itself is left
untouched in that branch.  The `Vector` branch (lines 61-115) overwrites
`self` with the new displacement. -/
def moveFrom (ups : ℕ) (intent : MoveIntent) (location : LocationVec) :
    LocationVec × MoveIntent :=
  match intent with
  | .Position target speed =>
      ((moveVector ups ⟨target.x - location.x, target.y - location.y⟩ speed location).1,
       .Position target speed)
  | .Vector v speed =>
      let r := moveVector ups v speed location
      (r.1, .Vector r.2 speed)

/-- Rust: `pub fn has_arrived(&self, current_location: &LocationVec) -> bool`
(movement.rs lines 127-136): `Position` compares the current location with
the target using derived equality; `Vector` tests both displacement
components against `0.0`. -/
def hasArrived (intent : MoveIntent) (current : LocationVec) : Bool :=
  match intent with
  | .Position target _ => decide (current = target)
  | .Vector v _ => decide (v.x = 0) && decide (v.y = 0)

/-- Rust: `pub fn target_goal(&self, current_location: &LocationVec) -> LocationVec`
(movement.rs lines 146-154). -/
def targetGoal (intent : MoveIntent) (current : LocationVec) : LocationVec :=
  match intent with
  | .Position target _ => target
  | .Vector v _ => ⟨current.x + v.x, current.y + v.y⟩

/-- The per-tick driving loop from the spec (§2 data flow, mirrored by the
`move_vector` test in movement.rs lines 176-186): repeatedly call `moveFrom`,
writing the returned location and the mutated intent back as the next state. -/
def iterateMove (ups : ℕ) (st : LocationVec × MoveIntent) : ℕ → LocationVec × MoveIntent
  | 0 => st
  | n + 1 =>
      let prev := iterateMove ups st n
      moveFrom ups prev.2 prev.1

/-- Modelled from the spec: the serde-derived serialization of `Duration`
(duration.rs line 5 `#[derive(..., Serialize, Deserialize)]`; the derived
code is not among the provided sources).  Spec §6: a stable external
representation preserving the tagged-union variant and its fields, here a
variant tag together with the integer payload. -/
def serializeDuration : Duration → ℕ × ℤ
  | .Infinite => (0, 0)
  | .Steps n => (1, n)
  | .Updates n => (2, n)

/-- Modelled from the spec: inverse direction of the serde-derived format
for `Duration`; unknown tags are rejected. -/
def deserializeDuration : ℕ × ℤ → Option Duration
  | (0, _) => some .Infinite
  | (1, n) => some (.Steps n)
  | (2, n) => some (.Updates n)
  | _ => none

/-- Modelled from the spec: the serde-derived serialization of `MoveIntent`
(movement.rs line 21 `#[derive(..., Serialize, Deserialize, Clone)]`; the
derived code is not among the provided sources).  Spec §6: variant tag plus
the payload fields (vector coordinates and speed). -/
def serializeMoveIntent : MoveIntent → ℕ × (ℚ × ℚ) × ℚ
  | .Vector v s => (0, (v.x, v.y), s)
  | .Position t s => (1, (t.x, t.y), s)

/-- Modelled from the spec: inverse direction of the serde-derived format
for `MoveIntent`; unknown tags are rejected. -/
def deserializeMoveIntent : ℕ × (ℚ × ℚ) × ℚ → Option MoveIntent
  | (0, (a, b), s) => some (.Vector ⟨a, b⟩ s)
  | (1, (a, b), s) => some (.Position ⟨a, b⟩ s)
  | _ => none

/-! ### Helper lemmas -/

lemma iterateMove_succ (ups : ℕ) (st : LocationVec × MoveIntent) (n : ℕ) :
    iterateMove ups st (n + 1) =
      moveFrom ups (iterateMove ups st n).2 (iterateMove ups st n).1 := rfl

lemma moveFrom_position_snd (ups : ℕ) (t : LocationVec) (s : ℚ) (l : LocationVec) :
    (moveFrom ups (.Position t s) l).2 = .Position t s := rfl

lemma iterateMove_position_snd (ups : ℕ) (t : LocationVec) (s : ℚ)
    (l : LocationVec) (n : ℕ) :
    (iterateMove ups (l, .Position t s) n).2 = .Position t s := by
  induction n with
  | zero => rfl
  | succ n ih => rw [iterateMove_succ, ih, moveFrom_position_snd]

/-! ### Claim theorems -/

/-- C4: `has_arrived` on a `Position` intent is true exactly when the current
location equals the stored target (so any location unequal to the target,
however close, yields false), and on a `Vector` intent exactly when both
displacement components are exactly zero. -/
theorem C4_has_arrived_exact (t v : LocationVec) (s : ℚ) (c : LocationVec) :
    (hasArrived (.Position t s) c = true ↔ c = t)
    ∧ (hasArrived (.Vector v s) c = true ↔ v.x = 0 ∧ v.y = 0) := by
  simp [hasArrived]

/-- C6: the `Position` branch of `move_from` returns exactly the location the
`Vector` branch returns for the rewritten displacement `target - current`
with the same speed. -/
theorem C6_position_reduces_to_vector (ups : ℕ) (t : LocationVec) (s : ℚ)
    (l : LocationVec) :
    (moveFrom ups (.Position t s) l).1 =
      (moveFrom ups (.Vector ⟨t.x - l.x, t.y - l.y⟩ s) l).1 := rfl

/-- C8: serializing then deserializing any `MoveIntent` or `Duration` value
yields the original value (variant tag and all fields preserved). -/
theorem C8_serialization_round_trip :
    (∀ i : MoveIntent, deserializeMoveIntent (serializeMoveIntent i) = some i)
    ∧ (∀ d : Duration, deserializeDuration (serializeDuration d) = some d) := by
  refine ⟨fun i => ?_, fun d => ?_⟩
  · cases i <;> rfl
  · cases d <;> rfl

/-- C9: `move_from` on a `Position` intent never modifies the intent: after
any number of calls, from any starting location, the intent is still the same
`Position` with the same target and speed (the `Vector` rewrite happens only
on a local copy). -/
theorem C9_position_intent_never_mutated (ups : ℕ) (t : LocationVec) (s : ℚ)
    (l : LocationVec) (n : ℕ) :
    (iterateMove ups (l, .Position t s) n).2 = .Position t s :=
  iterateMove_position_snd ups t s l n

/-- C10: for a `Vector` intent with displacement exactly (0, 0) and any
speed, `move_from` produces a zero step on both axes (the 0/0 proportional
split composed with the min-clamp against the zero remaining displacement
yields 0): the displacement stays exactly (0, 0) and the returned location
is the (finite) rounding-correction of the input location. -/
theorem C10_zero_displacement_safe (ups : ℕ) (s : ℚ) (l : LocationVec) :
    moveFrom ups (.Vector ⟨0, 0⟩ s) l =
      (⟨roundCorrect l.x, roundCorrect l.y⟩, .Vector ⟨0, 0⟩ s) := by
  simp [moveFrom, moveVector, clampedStepX, clampedStepY, rawStepX, rawStepY,
    direction, snapPrecision, stepSize]

/-- C1: starting at (0,0) with intent `Vector((5,0), speed 5)` at 10 ticks
per second, ten applications of `move_from` (each returned location fed back
as the next current location) end at exactly (5,0) with displacement exactly
(0,0) and `has_arrived` true, and the x coordinate never exceeds 5 at any
tick along the way. -/
theorem C1_straight_line_arrival :
    (iterateMove 10 (⟨0, 0⟩, .Vector ⟨5, 0⟩ 5) 10).1 = ⟨5, 0⟩
    ∧ (iterateMove 10 (⟨0, 0⟩, .Vector ⟨5, 0⟩ 5) 10).2 = .Vector ⟨0, 0⟩ 5
    ∧ hasArrived (iterateMove 10 (⟨0, 0⟩, .Vector ⟨5, 0⟩ 5) 10).2
        (iterateMove 10 (⟨0, 0⟩, .Vector ⟨5, 0⟩ 5) 10).1 = true
    ∧ ∀ k : Fin 11, (iterateMove 10 (⟨0, 0⟩, .Vector ⟨5, 0⟩ 5) (k : ℕ)).1.x ≤ 5 := by
  have h0 : iterateMove 10 (⟨0, 0⟩, .Vector ⟨5, 0⟩ 5) 0 =
      ((⟨0, 0⟩ : LocationVec), MoveIntent.Vector ⟨5, 0⟩ 5) := rfl
  have h1 : iterateMove 10 (⟨0, 0⟩, .Vector ⟨5, 0⟩ 5) 1 =
      ((⟨1/2, 0⟩ : LocationVec), MoveIntent.Vector ⟨9/2, 0⟩ 5) := by
    rw [show (1 : ℕ) = 0 + 1 from rfl, iterateMove_succ, h0]
    norm_num [moveFrom, moveVector, stepSize, clampedStepX, clampedStepY, rawStepX, rawStepY,
      direction, snapPrecision, roundCorrect, ratTrunc, rustRound, PRECISION,
      min_def, abs_eq_max_neg, max_def]
  have h2 : iterateMove 10 (⟨0, 0⟩, .Vector ⟨5, 0⟩ 5) 2 =
      ((⟨1, 0⟩ : LocationVec), MoveIntent.Vector ⟨4, 0⟩ 5) := by
    rw [show (2 : ℕ) = 1 + 1 from rfl, iterateMove_succ, h1]
    norm_num [moveFrom, moveVector, stepSize, clampedStepX, clampedStepY, rawStepX, rawStepY,
      direction, snapPrecision, roundCorrect, ratTrunc, rustRound, PRECISION,
      min_def, abs_eq_max_neg, max_def]
  have h3 : iterateMove 10 (⟨0, 0⟩, .Vector ⟨5, 0⟩ 5) 3 =
      ((⟨3/2, 0⟩ : LocationVec), MoveIntent.Vector ⟨7/2, 0⟩ 5) := by
    rw [show (3 : ℕ) = 2 + 1 from rfl, iterateMove_succ, h2]
    norm_num [moveFrom, moveVector, stepSize, clampedStepX, clampedStepY, rawStepX, rawStepY,
      direction, snapPrecision, roundCorrect, ratTrunc, rustRound, PRECISION,
      min_def, abs_eq_max_neg, max_def]
  have h4 : iterateMove 10 (⟨0, 0⟩, .Vector ⟨5, 0⟩ 5) 4 =
      ((⟨2, 0⟩ : LocationVec), MoveIntent.Vector ⟨3, 0⟩ 5) := by
    rw [show (4 : ℕ) = 3 + 1 from rfl, iterateMove_succ, h3]
    norm_num [moveFrom, moveVector, stepSize, clampedStepX, clampedStepY, rawStepX, rawStepY,
      direction, snapPrecision, roundCorrect, ratTrunc, rustRound, PRECISION,
      min_def, abs_eq_max_neg, max_def]
  have h5 : iterateMove 10 (⟨0, 0⟩, .Vector ⟨5, 0⟩ 5) 5 =
      ((⟨5/2, 0⟩ : LocationVec), MoveIntent.Vector ⟨5/2, 0⟩ 5) := by
    rw [show (5 : ℕ) = 4 + 1 from rfl, iterateMove_succ, h4]
    norm_num [moveFrom, moveVector, stepSize, clampedStepX, clampedStepY, rawStepX, rawStepY,
      direction, snapPrecision, roundCorrect, ratTrunc, rustRound, PRECISION,
      min_def, abs_eq_max_neg, max_def]
  have h6 : iterateMove 10 (⟨0, 0⟩, .Vector ⟨5, 0⟩ 5) 6 =
      ((⟨3, 0⟩ : LocationVec), MoveIntent.Vector ⟨2, 0⟩ 5) := by
    rw [show (6 : ℕ) = 5 + 1 from rfl, iterateMove_succ, h5]
    norm_num [moveFrom, moveVector, stepSize, clampedStepX, clampedStepY, rawStepX, rawStepY,
      direction, snapPrecision, roundCorrect, ratTrunc, rustRound, PRECISION,
      min_def, abs_eq_max_neg, max_def]
  have h7 : iterateMove 10 (⟨0, 0⟩, .Vector ⟨5, 0⟩ 5) 7 =
      ((⟨7/2, 0⟩ : LocationVec), MoveIntent.Vector ⟨3/2, 0⟩ 5) := by
    rw [show (7 : ℕ) = 6 + 1 from rfl, iterateMove_succ, h6]
    norm_num [moveFrom, moveVector, stepSize, clampedStepX, clampedStepY, rawStepX, rawStepY,
      direction, snapPrecision, roundCorrect, ratTrunc, rustRound, PRECISION,
      min_def, abs_eq_max_neg, max_def]
  have h8 : iterateMove 10 (⟨0, 0⟩, .Vector ⟨5, 0⟩ 5) 8 =
      ((⟨4, 0⟩ : LocationVec), MoveIntent.Vector ⟨1, 0⟩ 5) := by
    rw [show (8 : ℕ) = 7 + 1 from rfl, iterateMove_succ, h7]
    norm_num [moveFrom, moveVector, stepSize, clampedStepX, clampedStepY, rawStepX, rawStepY,
      direction, snapPrecision, roundCorrect, ratTrunc, rustRound, PRECISION,
      min_def, abs_eq_max_neg, max_def]
  have h9 : iterateMove 10 (⟨0, 0⟩, .Vector ⟨5, 0⟩ 5) 9 =
      ((⟨9/2, 0⟩ : LocationVec), MoveIntent.Vector ⟨1/2, 0⟩ 5) := by
    rw [show (9 : ℕ) = 8 + 1 from rfl, iterateMove_succ, h8]
    norm_num [moveFrom, moveVector, stepSize, clampedStepX, clampedStepY, rawStepX, rawStepY,
      direction, snapPrecision, roundCorrect, ratTrunc, rustRound, PRECISION,
      min_def, abs_eq_max_neg, max_def]
  have h10 : iterateMove 10 (⟨0, 0⟩, .Vector ⟨5, 0⟩ 5) 10 =
      ((⟨5, 0⟩ : LocationVec), MoveIntent.Vector ⟨0, 0⟩ 5) := by
    rw [show (10 : ℕ) = 9 + 1 from rfl, iterateMove_succ, h9]
    norm_num [moveFrom, moveVector, stepSize, clampedStepX, clampedStepY, rawStepX, rawStepY,
      direction, snapPrecision, roundCorrect, ratTrunc, rustRound, PRECISION,
      min_def, abs_eq_max_neg, max_def]
  refine ⟨by rw [h10], by rw [h10], ?_, ?_⟩
  · rw [h10]
    simp [hasArrived]
  · intro k
    fin_cases k <;> norm_num [h0, h1, h2, h3, h4, h5, h6, h7, h8, h9, h10]


lemma PRECISION_pos : (0 : ℚ) < PRECISION := by norm_num [PRECISION]

lemma PRECISION_lt_half : PRECISION < 1 / 2 := by norm_num [PRECISION]

lemma rustRound_near_floor (a : ℚ) (ha : 0 ≤ a) (h : a - (⌊a⌋ : ℚ) < PRECISION) :
    |rustRound a - a| ≤ PRECISION := by
  have hfl : (⌊a⌋ : ℚ) ≤ a := Int.floor_le a
  have hfloor : ⌊a + 1 / 2⌋ = ⌊a⌋ := by
    rw [Int.floor_eq_iff]
    constructor
    · linarith
    · linarith [PRECISION_lt_half]
  rw [rustRound, if_pos ha, hfloor, abs_sub_comm, abs_of_nonneg (by linarith)]
  linarith

lemma rustRound_near_floor_succ (a : ℚ) (ha : 0 ≤ a)
    (h : (⌊a⌋ : ℚ) + 1 - PRECISION ≤ a) :
    |rustRound a - a| ≤ PRECISION := by
  have hlt : a < (⌊a⌋ : ℚ) + 1 := Int.lt_floor_add_one a
  have hfloor : ⌊a + 1 / 2⌋ = ⌊a⌋ + 1 := by
    rw [Int.floor_eq_iff]
    push_cast
    constructor
    · linarith [PRECISION_lt_half]
    · linarith
  rw [rustRound, if_pos ha, hfloor]
  push_cast
  rw [abs_of_nonneg (by linarith)]
  linarith

lemma abs_roundCorrect_sub_le (a : ℚ) : |roundCorrect a - a| ≤ PRECISION := by
  have hP := PRECISION_pos
  have hPh := PRECISION_lt_half
  rw [roundCorrect]
  split_ifs with h1 h2
  · obtain ⟨hsmall, htr⟩ := h1
    have ha : 0 ≤ a := by
      by_contra hneg
      push_neg at hneg
      rw [ratTrunc, if_neg (not_le.mpr hneg)] at htr
      have hfl : (⌊-a⌋ : ℚ) ≤ -a := Int.floor_le (-a)
      linarith
    rw [ratTrunc, if_pos ha, abs_of_nonneg ha,
      abs_of_nonneg (show (0 : ℚ) ≤ (⌊a⌋ : ℚ) by exact_mod_cast Int.floor_nonneg.mpr ha)]
      at hsmall
    exact rustRound_near_floor a ha (by linarith)
  · rcases le_or_lt 0 a with ha | ha
    · rw [ratTrunc, if_pos (show (0 : ℚ) ≤ a + PRECISION by linarith), abs_of_nonneg ha,
        abs_of_nonneg (show (0 : ℚ) ≤ (⌊a + PRECISION⌋ : ℚ) by
          exact_mod_cast Int.floor_nonneg.mpr (by linarith))] at h2
      rcases lt_or_le (a + PRECISION) ((⌊a⌋ : ℚ) + 1) with hc | hc
      · have hfe : ⌊a + PRECISION⌋ = ⌊a⌋ := by
          rw [Int.floor_eq_iff]
          exact ⟨by linarith [Int.floor_le a], hc⟩
        rw [hfe] at h2
        exact rustRound_near_floor a ha (by linarith)
      · exact rustRound_near_floor_succ a ha (by linarith)
    · have hgt : -PRECISION < a := by
        by_contra hle
        push_neg at hle
        rcases eq_or_lt_of_le (show a + PRECISION ≤ 0 by linarith) with he | hlt2
        · rw [he] at h2
          have hz : ratTrunc (0 : ℚ) = 0 := by simp [ratTrunc]
          rw [hz, abs_of_neg ha] at h2
          simp at h2
          linarith
        · rw [ratTrunc, if_neg (not_le.mpr hlt2), abs_of_neg ha, abs_neg,
            abs_of_nonneg (show (0 : ℚ) ≤ (⌊-(a + PRECISION)⌋ : ℚ) by
              exact_mod_cast Int.floor_nonneg.mpr (by linarith))] at h2
          have hfl : (⌊-(a + PRECISION)⌋ : ℚ) ≤ -(a + PRECISION) := Int.floor_le _
          linarith
      have hround : rustRound a = 0 := by
        rw [rustRound, if_neg (not_le.mpr ha)]
        have hz : ⌊-a + 1 / 2⌋ = 0 := by
          rw [Int.floor_eq_iff]
          push_cast
          constructor <;> linarith
        rw [hz]
        norm_num
      rw [hround, zero_sub, abs_neg, abs_of_neg ha]
      linarith
  · simp [hP.le]

lemma abs_snapPrecision_sub_le (t : ℚ) : |snapPrecision t - t| ≤ PRECISION := by
  rw [snapPrecision]
  split_ifs with h
  · rw [zero_sub, abs_neg]
    exact h.le
  · simp [PRECISION_pos.le]

lemma snapPrecision_nonneg (t : ℚ) (h : 0 ≤ t) : 0 ≤ snapPrecision t := by
  rw [snapPrecision]
  split_ifs
  · exact le_refl 0
  · exact h

lemma snapPrecision_nonpos (t : ℚ) (h : t ≤ 0) : snapPrecision t ≤ 0 := by
  rw [snapPrecision]
  split_ifs
  · exact le_refl 0
  · exact h

lemma abs_snapPrecision_le (t : ℚ) : |snapPrecision t| ≤ |t| := by
  rw [snapPrecision]
  split_ifs
  · simp
  · exact le_refl _

lemma abs_direction_le_one (t : ℚ) : |direction t| ≤ 1 := by
  rw [direction]
  split_ifs with h
  · simp
  · rw [abs_div, abs_abs, div_self (abs_ne_zero.mpr h)]

lemma abs_mul_direction_le (c t : ℚ) (h0 : 0 ≤ c) : |c * direction t| ≤ c := by
  rw [abs_mul]
  calc |c| * |direction t| ≤ |c| * 1 :=
        mul_le_mul_of_nonneg_left (abs_direction_le_one t) (abs_nonneg c)
    _ = c := by rw [mul_one, abs_of_nonneg h0]

lemma clampedStepX_nonneg (v : LocationVec) (step : ℚ) (hstep : 0 ≤ step) :
    0 ≤ clampedStepX v step := by
  rw [clampedStepX]
  refine le_min ?_ (abs_nonneg _)
  rw [rawStepX]
  exact mul_nonneg (div_nonneg (abs_nonneg _) (add_nonneg (abs_nonneg _) (abs_nonneg _)))
    hstep

lemma clampedStepY_nonneg (v : LocationVec) (step : ℚ) (hstep : 0 ≤ step) :
    0 ≤ clampedStepY v step := by
  rw [clampedStepY]
  refine le_min ?_ (abs_nonneg _)
  rw [rawStepY]
  exact mul_nonneg (div_nonneg (abs_nonneg _) (add_nonneg (abs_nonneg _) (abs_nonneg _)))
    hstep

lemma clampedStepX_le_abs (v : LocationVec) (step : ℚ) : clampedStepX v step ≤ |v.x| :=
  min_le_right _ _

lemma clampedStepY_le_abs (v : LocationVec) (step : ℚ) : clampedStepY v step ≤ |v.y| :=
  min_le_right _ _

lemma sub_step_direction_bounds (a c : ℚ) (h0 : 0 ≤ c) (h1 : c ≤ |a|) :
    (0 ≤ a → 0 ≤ a - c * direction a) ∧ (a ≤ 0 → a - c * direction a ≤ 0) ∧
    |a - c * direction a| ≤ |a| := by
  rcases lt_trichotomy a 0 with hneg | hzero | hpos
  · have hd : direction a = -1 := by
      rw [direction, if_neg (ne_of_lt hneg), abs_of_neg hneg, div_neg,
        div_self (ne_of_lt hneg)]
    rw [abs_of_neg hneg] at h1
    rw [hd]
    refine ⟨fun hge => absurd hge (not_le.mpr hneg), fun _ => by linarith, ?_⟩
    rw [abs_of_neg hneg, abs_of_nonpos (by linarith : a - c * (-1) ≤ 0)]
    linarith
  · simp [hzero, direction]
  · have hd : direction a = 1 := by
      rw [direction, if_neg (ne_of_gt hpos), abs_of_pos hpos, div_self (ne_of_gt hpos)]
    rw [abs_of_pos hpos] at h1
    rw [hd, mul_one]
    refine ⟨fun _ => by linarith, fun hle => absurd hle (not_le.mpr hpos), ?_⟩
    rw [abs_of_pos hpos, abs_of_nonneg (by linarith : (0:ℚ) ≤ a - c)]
    linarith

lemma moveVector_axis_bound_x (ups : ℕ) (v : LocationVec) (s : ℚ) (l : LocationVec)
    (hs : 0 ≤ s) :
    |(moveVector ups v s l).1.x - l.x| ≤ |v.x| + PRECISION := by
  have hstep : 0 ≤ stepSize ups s := div_nonneg hs (Nat.cast_nonneg ups)
  have hc0 : 0 ≤ clampedStepX v (stepSize ups s) := clampedStepX_nonneg v _ hstep
  have hcb : clampedStepX v (stepSize ups s) ≤ |v.x| := clampedStepX_le_abs v _
  have hmove : |clampedStepX v (stepSize ups s) * direction v.x| ≤ |v.x| :=
    le_trans (abs_mul_direction_le _ _ hc0) hcb
  have hsplit : (moveVector ups v s l).1.x =
      roundCorrect (l.x + clampedStepX v (stepSize ups s) * direction v.x) := rfl
  rw [hsplit]
  have hkey := abs_roundCorrect_sub_le (l.x + clampedStepX v (stepSize ups s) * direction v.x)
  have htri := abs_sub_le
    (roundCorrect (l.x + clampedStepX v (stepSize ups s) * direction v.x))
    (l.x + clampedStepX v (stepSize ups s) * direction v.x) l.x
  have heq : |l.x + clampedStepX v (stepSize ups s) * direction v.x - l.x| =
      |clampedStepX v (stepSize ups s) * direction v.x| := by ring_nf
  linarith [heq ▸ htri]

lemma moveVector_axis_bound_y (ups : ℕ) (v : LocationVec) (s : ℚ) (l : LocationVec)
    (hs : 0 ≤ s) :
    |(moveVector ups v s l).1.y - l.y| ≤ |v.y| + PRECISION := by
  have hstep : 0 ≤ stepSize ups s := div_nonneg hs (Nat.cast_nonneg ups)
  have hc0 : 0 ≤ clampedStepY v (stepSize ups s) := clampedStepY_nonneg v _ hstep
  have hcb : clampedStepY v (stepSize ups s) ≤ |v.y| := clampedStepY_le_abs v _
  have hmove : |clampedStepY v (stepSize ups s) * direction v.y| ≤ |v.y| :=
    le_trans (abs_mul_direction_le _ _ hc0) hcb
  have hsplit : (moveVector ups v s l).1.y =
      roundCorrect (l.y + clampedStepY v (stepSize ups s) * direction v.y) := rfl
  rw [hsplit]
  have hkey := abs_roundCorrect_sub_le (l.y + clampedStepY v (stepSize ups s) * direction v.y)
  have htri := abs_sub_le
    (roundCorrect (l.y + clampedStepY v (stepSize ups s) * direction v.y))
    (l.y + clampedStepY v (stepSize ups s) * direction v.y) l.y
  have heq : |l.y + clampedStepY v (stepSize ups s) * direction v.y - l.y| =
      |clampedStepY v (stepSize ups s) * direction v.y| := by ring_nf
  linarith [heq ▸ htri]

/-- C2 counterexample: with intent `Vector((2⁻²⁶, 0), speed 1)` at 10 ticks
per second from location (2 − 2⁻²⁵, 0), the returned location is exactly
(2, 0) — the integer-snapping correction fires — so the distance moved on
the x axis, 2⁻²⁵, exceeds the remaining distance 2⁻²⁶ at the start of the
tick.  All values involved are dyadic, hence exactly representable in f64. -/
theorem C2_counterexample :
    |((1 : ℚ) / 2 ^ 26)| <
      |(moveFrom 10 (.Vector ⟨1 / 2 ^ 26, 0⟩ 1) ⟨2 - 1 / 2 ^ 25, 0⟩).1.x -
        (2 - 1 / 2 ^ 25)| := by
  have hval : (moveFrom 10 (.Vector ⟨1 / 2 ^ 26, 0⟩ 1) ⟨2 - 1 / 2 ^ 25, 0⟩).1 =
      ⟨2, 0⟩ := by
    norm_num [moveFrom, moveVector, stepSize, clampedStepX, clampedStepY, rawStepX,
      rawStepY, direction, snapPrecision, roundCorrect, ratTrunc, rustRound, PRECISION,
      min_def, abs_eq_max_neg, max_def]
  rw [hval]
  rw [abs_of_nonneg (by norm_num), abs_of_nonneg (by norm_num)]
  norm_num

/-- C2 amended: for non-negative speed, a single `move_from` step changes
each coordinate by at most that axis's remaining absolute distance to the
goal plus `PRECISION` (the integer-snapping correction can add up to
`PRECISION` of extra travel, as the counterexample shows; negative speed
moves away from the goal without bound). -/
theorem C2_no_overshoot_up_to_precision (ups : ℕ) (s : ℚ) (v t l : LocationVec)
    (hs : 0 ≤ s) :
    |(moveFrom ups (.Vector v s) l).1.x - l.x| ≤ |v.x| + PRECISION
    ∧ |(moveFrom ups (.Vector v s) l).1.y - l.y| ≤ |v.y| + PRECISION
    ∧ |(moveFrom ups (.Position t s) l).1.x - l.x| ≤ |t.x - l.x| + PRECISION
    ∧ |(moveFrom ups (.Position t s) l).1.y - l.y| ≤ |t.y - l.y| + PRECISION := by
  refine ⟨?_, ?_, ?_, ?_⟩
  · exact moveVector_axis_bound_x ups v s l hs
  · exact moveVector_axis_bound_y ups v s l hs
  · exact moveVector_axis_bound_x ups ⟨t.x - l.x, t.y - l.y⟩ s l hs
  · exact moveVector_axis_bound_y ups ⟨t.x - l.x, t.y - l.y⟩ s l hs

/-- Witness for C2: the bound instantiated at a concrete input. -/
theorem C2_no_overshoot_up_to_precision_witness :
    (0 : ℚ) ≤ 1
    ∧ (|(moveFrom 10 (.Vector ⟨1, 2⟩ 1) ⟨0, 0⟩).1.x - (0:ℚ)| ≤ |(1:ℚ)| + PRECISION
      ∧ |(moveFrom 10 (.Vector ⟨1, 2⟩ 1) ⟨0, 0⟩).1.y - (0:ℚ)| ≤ |(2:ℚ)| + PRECISION
      ∧ |(moveFrom 10 (.Position ⟨3, 4⟩ 1) ⟨0, 0⟩).1.x - (0:ℚ)| ≤ |(3:ℚ) - 0| + PRECISION
      ∧ |(moveFrom 10 (.Position ⟨3, 4⟩ 1) ⟨0, 0⟩).1.y - (0:ℚ)| ≤ |(4:ℚ) - 0| + PRECISION) :=
  ⟨by norm_num, C2_no_overshoot_up_to_precision 10 1 ⟨1, 2⟩ ⟨3, 4⟩ ⟨0, 0⟩ (by norm_num)⟩

/-- C3: for a `Vector` intent with positive speed, one `move_from` call
keeps each displacement component on the same side of zero (or at zero),
never increases its absolute value, and snaps a component to exactly 0
whenever its post-step value falls below `PRECISION` in absolute value. -/
theorem C3_displacement_monotone (ups : ℕ) (v : LocationVec) (s : ℚ) (l : LocationVec)
    (_hups : 0 < ups) (hs : 0 < s) :
    (moveFrom ups (.Vector v s) l).2 = .Vector (moveVector ups v s l).2 s
    ∧ (0 ≤ v.x → 0 ≤ (moveVector ups v s l).2.x)
    ∧ (v.x ≤ 0 → (moveVector ups v s l).2.x ≤ 0)
    ∧ |(moveVector ups v s l).2.x| ≤ |v.x|
    ∧ (|v.x - clampedStepX v (stepSize ups s) * direction v.x| < PRECISION →
        (moveVector ups v s l).2.x = 0)
    ∧ (0 ≤ v.y → 0 ≤ (moveVector ups v s l).2.y)
    ∧ (v.y ≤ 0 → (moveVector ups v s l).2.y ≤ 0)
    ∧ |(moveVector ups v s l).2.y| ≤ |v.y|
    ∧ (|v.y - clampedStepY v (stepSize ups s) * direction v.y| < PRECISION →
        (moveVector ups v s l).2.y = 0) := by
  have hstep : 0 ≤ stepSize ups s := div_nonneg hs.le (Nat.cast_nonneg ups)
  have hbx := sub_step_direction_bounds v.x (clampedStepX v (stepSize ups s))
    (clampedStepX_nonneg v _ hstep) (clampedStepX_le_abs v _)
  have hby := sub_step_direction_bounds v.y (clampedStepY v (stepSize ups s))
    (clampedStepY_nonneg v _ hstep) (clampedStepY_le_abs v _)
  have hsx : (moveVector ups v s l).2.x =
      snapPrecision (v.x - clampedStepX v (stepSize ups s) * direction v.x) := rfl
  have hsy : (moveVector ups v s l).2.y =
      snapPrecision (v.y - clampedStepY v (stepSize ups s) * direction v.y) := rfl
  refine ⟨rfl, ?_, ?_, ?_, ?_, ?_, ?_, ?_, ?_⟩
  · intro h
    rw [hsx]
    exact snapPrecision_nonneg _ (hbx.1 h)
  · intro h
    rw [hsx]
    exact snapPrecision_nonpos _ (hbx.2.1 h)
  · rw [hsx]
    exact le_trans (abs_snapPrecision_le _) hbx.2.2
  · intro h
    rw [hsx, snapPrecision, if_pos h]
  · intro h
    rw [hsy]
    exact snapPrecision_nonneg _ (hby.1 h)
  · intro h
    rw [hsy]
    exact snapPrecision_nonpos _ (hby.2.1 h)
  · rw [hsy]
    exact le_trans (abs_snapPrecision_le _) hby.2.2
  · intro h
    rw [hsy, snapPrecision, if_pos h]

/-- Witness for C3: the monotonicity properties instantiated at the concrete
intent `Vector((3, -4), speed 1)` from the origin at 10 ticks per second. -/
theorem C3_displacement_monotone_witness :
    (0 < 10 ∧ (0 : ℚ) < 1)
    ∧ ((moveFrom 10 (.Vector ⟨3, -4⟩ 1) ⟨0, 0⟩).2 =
          .Vector (moveVector 10 ⟨3, -4⟩ 1 ⟨0, 0⟩).2 1
      ∧ ((0:ℚ) ≤ 3 → 0 ≤ (moveVector 10 ⟨3, -4⟩ 1 ⟨0, 0⟩).2.x)
      ∧ ((3:ℚ) ≤ 0 → (moveVector 10 ⟨3, -4⟩ 1 ⟨0, 0⟩).2.x ≤ 0)
      ∧ |(moveVector 10 ⟨3, -4⟩ 1 ⟨0, 0⟩).2.x| ≤ |(3:ℚ)|
      ∧ (|(3:ℚ) - clampedStepX ⟨3, -4⟩ (stepSize 10 1) * direction 3| < PRECISION →
          (moveVector 10 ⟨3, -4⟩ 1 ⟨0, 0⟩).2.x = 0)
      ∧ ((0:ℚ) ≤ -4 → 0 ≤ (moveVector 10 ⟨3, -4⟩ 1 ⟨0, 0⟩).2.y)
      ∧ ((-4:ℚ) ≤ 0 → (moveVector 10 ⟨3, -4⟩ 1 ⟨0, 0⟩).2.y ≤ 0)
      ∧ |(moveVector 10 ⟨3, -4⟩ 1 ⟨0, 0⟩).2.y| ≤ |(-4:ℚ)|
      ∧ (|(-4:ℚ) - clampedStepY ⟨3, -4⟩ (stepSize 10 1) * direction (-4)| < PRECISION →
          (moveVector 10 ⟨3, -4⟩ 1 ⟨0, 0⟩).2.y = 0)) :=
  ⟨⟨by norm_num, by norm_num⟩,
    C3_displacement_monotone 10 ⟨3, -4⟩ 1 ⟨0, 0⟩ (by norm_num) (by norm_num)⟩

/-- C5 counterexample: with intent `Vector((1/10 + 2⁻²⁴, 0), speed 1)` at 10
ticks per second from the origin, the step leaves remainder 2⁻²⁴ < PRECISION
which is snapped to 0, so the goal reported after the step, (1/10, 0), is
not the goal reported before it, (1/10 + 2⁻²⁴, 0).  All values are dyadic
except 1/10, whose f64 rounding error (≈ 5.5·10⁻¹⁸) is absorbed by the same
snap, so the f64 run takes the same branches. -/
theorem C5_counterexample :
    targetGoal (moveFrom 10 (.Vector ⟨1 / 10 + 1 / 2 ^ 24, 0⟩ 1) ⟨0, 0⟩).2
        (moveFrom 10 (.Vector ⟨1 / 10 + 1 / 2 ^ 24, 0⟩ 1) ⟨0, 0⟩).1
      ≠ targetGoal (.Vector ⟨1 / 10 + 1 / 2 ^ 24, 0⟩ 1) ⟨0, 0⟩ := by
  have hval : moveFrom 10 (.Vector ⟨1 / 10 + 1 / 2 ^ 24, 0⟩ 1) ⟨0, 0⟩ =
      (⟨1 / 10, 0⟩, .Vector ⟨0, 0⟩ 1) := by
    norm_num [moveFrom, moveVector, stepSize, clampedStepX, clampedStepY, rawStepX,
      rawStepY, direction, snapPrecision, roundCorrect, ratTrunc, rustRound, PRECISION,
      min_def, abs_eq_max_neg, max_def]
  rw [hval]
  simp only [targetGoal, LocationVec.mk.injEq, ne_eq]
  norm_num

/-- C5 amended: for a `Position` intent the reported goal is the stored
target, unchanged by any number of `move_from` steps.  For a `Vector`
intent the goal reported after a step can differ from the one reported
before it (precision-snapping of the displacement and integer-snapping of
the location both move it, as the counterexample shows), but by at most
2·PRECISION per axis per step. -/
theorem C5_target_goal_stability :
    (∀ (ups n : ℕ) (t : LocationVec) (s : ℚ) (l : LocationVec),
        targetGoal (iterateMove ups (l, .Position t s) n).2
          (iterateMove ups (l, .Position t s) n).1 = t)
    ∧ (∀ (ups : ℕ) (v : LocationVec) (s : ℚ) (l : LocationVec),
        |(targetGoal (moveFrom ups (.Vector v s) l).2
            (moveFrom ups (.Vector v s) l).1).x
          - (targetGoal (.Vector v s) l).x| ≤ 2 * PRECISION
        ∧ |(targetGoal (moveFrom ups (.Vector v s) l).2
            (moveFrom ups (.Vector v s) l).1).y
          - (targetGoal (.Vector v s) l).y| ≤ 2 * PRECISION) := by
  constructor
  · intro ups n t s l
    rw [iterateMove_position_snd]
    rfl
  · intro ups v s l
    constructor
    · rw [show (targetGoal (moveFrom ups (.Vector v s) l).2
            (moveFrom ups (.Vector v s) l).1).x =
          roundCorrect (l.x + clampedStepX v (stepSize ups s) * direction v.x)
          + snapPrecision (v.x - clampedStepX v (stepSize ups s) * direction v.x) from rfl,
        show (targetGoal (.Vector v s) l).x = l.x + v.x from rfl]
      have h1 := abs_roundCorrect_sub_le
        (l.x + clampedStepX v (stepSize ups s) * direction v.x)
      have h2 := abs_snapPrecision_sub_le
        (v.x - clampedStepX v (stepSize ups s) * direction v.x)
      have harg : roundCorrect (l.x + clampedStepX v (stepSize ups s) * direction v.x)
          + snapPrecision (v.x - clampedStepX v (stepSize ups s) * direction v.x)
          - (l.x + v.x)
          = (roundCorrect (l.x + clampedStepX v (stepSize ups s) * direction v.x)
              - (l.x + clampedStepX v (stepSize ups s) * direction v.x))
            + (snapPrecision (v.x - clampedStepX v (stepSize ups s) * direction v.x)
              - (v.x - clampedStepX v (stepSize ups s) * direction v.x)) := by ring
      rw [harg]
      calc |_ + _| ≤ _ + _ := abs_add _ _
        _ ≤ 2 * PRECISION := by linarith
    · rw [show (targetGoal (moveFrom ups (.Vector v s) l).2
            (moveFrom ups (.Vector v s) l).1).y =
          roundCorrect (l.y + clampedStepY v (stepSize ups s) * direction v.y)
          + snapPrecision (v.y - clampedStepY v (stepSize ups s) * direction v.y) from rfl,
        show (targetGoal (.Vector v s) l).y = l.y + v.y from rfl]
      have h1 := abs_roundCorrect_sub_le
        (l.y + clampedStepY v (stepSize ups s) * direction v.y)
      have h2 := abs_snapPrecision_sub_le
        (v.y - clampedStepY v (stepSize ups s) * direction v.y)
      have harg : roundCorrect (l.y + clampedStepY v (stepSize ups s) * direction v.y)
          + snapPrecision (v.y - clampedStepY v (stepSize ups s) * direction v.y)
          - (l.y + v.y)
          = (roundCorrect (l.y + clampedStepY v (stepSize ups s) * direction v.y)
              - (l.y + clampedStepY v (stepSize ups s) * direction v.y))
            + (snapPrecision (v.y - clampedStepY v (stepSize ups s) * direction v.y)
              - (v.y - clampedStepY v (stepSize ups s) * direction v.y)) := by ring
      rw [harg]
      calc |_ + _| ≤ _ + _ := abs_add _ _
        _ ≤ 2 * PRECISION := by linarith

/-- C7 counterexample: with negative speed −1 the intent
`Vector((1, 0), −1)` does not degenerate to no movement: from the origin at
10 ticks per second the returned location is (−1/10, 0), a step away from
the goal, refuting "no movement for every speed ≤ 0". -/
theorem C7_counterexample :
    (moveFrom 10 (.Vector ⟨1, 0⟩ (-1)) ⟨0, 0⟩).1 ≠ (⟨0, 0⟩ : LocationVec) := by
  have hval : (moveFrom 10 (.Vector ⟨1, 0⟩ (-1)) ⟨0, 0⟩).1 = ⟨-1/10, 0⟩ := by
    norm_num [moveFrom, moveVector, stepSize, clampedStepX, clampedStepY, rawStepX,
      rawStepY, direction, snapPrecision, roundCorrect, ratTrunc, rustRound, PRECISION,
      min_def, abs_eq_max_neg, max_def]
  rw [hval]
  simp only [ne_eq, LocationVec.mk.injEq, not_and]
  intro h
  norm_num at h

/-- C7 amended: `move_from` is total (a value on every input; inherent in
the embedding being a Lean function), and an intent with speed exactly 0
produces a zero step on both axes: the returned location is the input
location with only the near-integer rounding correction applied, and a
`Vector` displacement is unchanged except for the sub-`PRECISION` snap to
0 (a `Position` intent is unchanged).  Negative speed does not degenerate
to no movement: it steps away from the goal, as the counterexample shows. -/
theorem C7_zero_speed_no_movement (ups : ℕ) (v t l : LocationVec) (_hups : 0 < ups) :
    moveFrom ups (.Vector v 0) l =
      (⟨roundCorrect l.x, roundCorrect l.y⟩,
        .Vector ⟨snapPrecision v.x, snapPrecision v.y⟩ 0)
    ∧ moveFrom ups (.Position t 0) l =
      (⟨roundCorrect l.x, roundCorrect l.y⟩, .Position t 0) := by
  have hstep : stepSize ups 0 = 0 := by rw [stepSize, zero_div]
  have hcx : ∀ w : LocationVec, clampedStepX w (stepSize ups 0) = 0 := fun w => by
    rw [clampedStepX, rawStepX, hstep, mul_zero]
    exact min_eq_left (abs_nonneg _)
  have hcy : ∀ w : LocationVec, clampedStepY w (stepSize ups 0) = 0 := fun w => by
    rw [clampedStepY, rawStepY, hstep, mul_zero]
    exact min_eq_left (abs_nonneg _)
  constructor
  · simp only [moveFrom, moveVector, hcx, hcy, zero_mul, add_zero, sub_zero]
  · simp only [moveFrom, moveVector, hcx, hcy, zero_mul, add_zero, sub_zero]

/-- Witness for C7: the zero-speed behaviour at a concrete input. -/
theorem C7_zero_speed_no_movement_witness :
    0 < 10
    ∧ (moveFrom 10 (.Vector ⟨1, 2⟩ 0) ⟨3, 4⟩ =
        (⟨roundCorrect 3, roundCorrect 4⟩,
          .Vector ⟨snapPrecision 1, snapPrecision 2⟩ 0)
      ∧ moveFrom 10 (.Position ⟨5, 6⟩ 0) ⟨3, 4⟩ =
        (⟨roundCorrect 3, roundCorrect 4⟩, .Position ⟨5, 6⟩ 0)) :=
  ⟨by norm_num, C7_zero_speed_no_movement 10 ⟨1, 2⟩ ⟨5, 6⟩ ⟨3, 4⟩ (by norm_num)⟩

end Rustac
